import Mathlib

/-!
Verification of the Teleport VNet subsystem: a shallow embedding of the
CertChecker, ProcessManager, teleterm VNet Service, admin-subcommand
OS-configuration loop, SetupAndRun control flow, and the address allocator,
with theorems settling the specification claims about them.

Machine integers, clocks and TLS certificates are abstracted: times are
naturals, errors are naturals tagged by constructors, and the external
certificate issuer is a mathematical oracle.  Goroutine interleavings are
modelled as explicit event traces; mutex-protected critical sections are
atomic steps of those traces.
-/

namespace CertCheck

/-- Abstraction of a TLS certificate as seen by CertChecker: `notAfter` is the
leaf certificate's expiry instant, `sub` abstracts the subject data that the
issuer's CheckCert inspects. -/
structure Cert where
  notAfter : Nat
  sub : Nat
  deriving DecidableEq, Repr

/-- Errors surfaced by GetCheckedCert: either an error returned by the
issuer's IssueCert call, or a failure of InitCertLeaf to parse the new cert. -/
inductive CertError where
  | issuer (code : Nat)
  | leafParse
  deriving DecidableEq, Repr

/-- Mathematical oracle for the CertIssuer interface together with the
ambient InitCertLeaf behaviour.  `checkCert c = true` models
`certIssuer.CheckCert(leaf) == nil`; `issueCert k` is the result of the
`k`-th IssueCert invocation made through this checker (the oracle is indexed
by invocation count so that the number of issuance calls is observable);
`leafOk c = true` models `utils.InitCertLeaf(&cert) == nil`. -/
structure IssuerModel where
  checkCert : Cert → Bool
  issueCert : Nat → Except Nat Cert
  leafOk : Cert → Bool

/-- Mutable state of a CertChecker: the cached `cert` (`none` models the
zero-value `tls.Certificate`, on which `utils.TLSCertLeaf` fails) and the
number of IssueCert invocations made so far. -/
structure CheckerState where
  cert : Option Cert
  issueCalls : Nat
  deriving DecidableEq, Repr

/-- `CertChecker.checkCert` from src/unnamed/part_003: fails when the cached
cert has no leaf (zero value), when `utils.VerifyCertificateExpiry` rejects it
against the checker's clock (`now`), or when the issuer's CheckCert rejects
it.  `VerifyCertificateExpiry` accepts exactly when `now` is not after the
leaf's NotAfter. -/
def checkCert (m : IssuerModel) (now : Nat) (cert : Option Cert) : Bool :=
  match cert with
  | none => false
  | some c => decide (now ≤ c.notAfter) && m.checkCert c

/-- `CertChecker.GetCheckedCert` from src/unnamed/part_003 (the body runs
under `certMu`, so one call is one atomic step).  If `checkCert` succeeds the
cached cert is returned unchanged; otherwise IssueCert is called once, then
InitCertLeaf, and on success the new cert is stored and returned. -/
def getCheckedCert (m : IssuerModel) (now : Nat) (s : CheckerState) :
    Except CertError Cert × CheckerState :=
  if checkCert m now s.cert then
    (Except.ok (s.cert.getD ⟨0, 0⟩), s)
  else
    match m.issueCert s.issueCalls with
    | Except.error e => (Except.error (CertError.issuer e), { s with issueCalls := s.issueCalls + 1 })
    | Except.ok cert =>
      if m.leafOk cert then
        (Except.ok cert, { cert := some cert, issueCalls := s.issueCalls + 1 })
      else
        (Except.error CertError.leafParse, { s with issueCalls := s.issueCalls + 1 })

/-- `N` serialized calls to GetCheckedCert at a fixed clock instant: the
`certMu` mutex serializes any `N` concurrent calls into some sequential order,
and since all calls are identical the order is irrelevant.  Returns the list
of per-caller results (first caller first) and the final state. -/
def getCheckedCertN (m : IssuerModel) (now : Nat) :
    Nat → CheckerState → List (Except CertError Cert) × CheckerState
  | 0, s => ([], s)
  | n + 1, s =>
    let r := getCheckedCert m now s
    let rest := getCheckedCertN m now n r.2
    (r.1 :: rest.1, rest.2)

end CertCheck

namespace PM

/-- State of a `ProcessManager` (src/unnamed/part_004) mid-run: `total` tasks
were registered with AddBackgroundTask, `pending` are the indices of the task
functions that have not yet returned, `firstErr` is the first non-nil error an
exited task returned (the one `errgroup.Group` retains via its `sync.Once`),
and `canceled` records whether the shared context `pm.ctx` has been canceled
(by `errgroup.WithContext` on the first task error, or by `pm.cancel`). -/
structure ManagerState where
  total : Nat
  pending : List Nat
  firstErr : Option Nat
  canceled : Bool
  deriving DecidableEq, Repr

/-- Initial state right after `newProcessManager` plus `n` calls to
`AddBackgroundTask`: every task is still running, no error, context live. -/
def mkManager (n : Nat) : ManagerState :=
  { total := n, pending := List.range n, firstErr := none, canceled := false }

/-- One task function returning.  `res = some e` models a non-nil error.
Embeds the `errgroup` semantics: the group records only the first error and
cancels the shared context when a task returns a non-nil error. -/
def taskDone (s : ManagerState) (i : Nat) (res : Option Nat) : ManagerState :=
  if i ∈ s.pending then
    { s with
      pending := s.pending.erase i
      firstErr := s.firstErr.orElse fun _ => res
      canceled := s.canceled || res.isSome }
  else s

/-- `pm.cancel` being invoked (as `Close` does in a spawned goroutine). -/
def cancelScope (s : ManagerState) : ManagerState := { s with canceled := true }

/-- `ProcessManager.Wait` = `errgroup.Group.Wait`: blocks until every task
function has returned, then yields the retained first error.  `none` models
"still blocked". -/
def wait (s : ManagerState) : Option (Option Nat) :=
  if s.pending = [] then some s.firstErr else none

/-- `ProcessManager.Close`: spawns `pm.cancel()` and then waits.  The result
is the pair (state after the cancel took effect, Wait result in that state). -/
def close (s : ManagerState) : ManagerState × Option (Option Nat) :=
  (cancelScope s, wait (cancelScope s))

/-- An execution fragment: process the completions of the tasks listed in
`order` (in that real-time order), task `i` returning `results.getD i none`,
starting from state `s`.  The mutexes inside `errgroup` make each completion
an atomic step. -/
def runFrom (results : List (Option Nat)) (order : List Nat) (s : ManagerState) :
    ManagerState :=
  order.foldl (fun t i => taskDone t i (results.getD i none)) s

/-- An execution of the manager: the registered tasks are described by the
list `results` (task `i` eventually returns `results.getD i none`), and
`order` is the real-time order in which the task functions return. -/
def exec (results : List (Option Nat)) (order : List Nat) : ManagerState :=
  runFrom results order (mkManager results.length)

/-- The first non-nil error among task completions in real-time order. -/
def firstErrIn (results : List (Option Nat)) (order : List Nat) : Option Nat :=
  (order.filterMap fun i => results.getD i none).head?

end PM

namespace TermVnet

/-- The `status` enum of the teleterm VNet `Service`
(src/unnamed/part_007): statusNotRunning, statusRunning, statusClosed. -/
inductive Status where
  | notRunning
  | running
  | closed
  deriving DecidableEq, Repr

/-- Observable state of the Service under its mutex `mu`: the `status` field,
plus `finalizers`, the number of VNet background goroutines spawned by `Start`
that have not yet executed their mutex-protected tail
(`s.status = statusNotRunning; cancelLongCtx(nil)`).  `instances` counts how
many VNet instances `Start` has launched in total (to observe that Start while
running does not launch a second one). -/
structure SvcState where
  status : Status
  finalizers : Nat
  instances : Nat
  deriving DecidableEq, Repr

/-- State of a freshly constructed Service (`New`). -/
def initSvc : SvcState :=
  { status := Status.notRunning, finalizers := 0, instances := 0 }

/-- Result of a Service RPC: `ok` or a gRPC error.  `compareFailed` is
`trace.CompareFailed("VNet service has been closed")`; `setupErr` abstracts a
failure of `vnet.Setup` or `NewUsageReporter` inside Start. -/
inductive RpcResult where
  | ok
  | compareFailed
  | setupErr (code : Nat)
  deriving DecidableEq, Repr

/-- `Service.Start` (one critical section under `mu`).  `setup` is the
combined outcome of `NewUsageReporter` and `vnet.Setup` for this call
(`none` = success).  On success a new VNet instance goroutine is launched and
the status becomes running. -/
def start (s : SvcState) (setup : Option Nat) : RpcResult × SvcState :=
  if s.status = Status.closed then
    (RpcResult.compareFailed, s)
  else if s.status = Status.running then
    (RpcResult.ok, s)
  else
    match setup with
    | some e => (RpcResult.setupErr e, s)
    | none =>
      (RpcResult.ok,
        { status := Status.running
          finalizers := s.finalizers + 1
          instances := s.instances + 1 })

/-- `Service.stopLocked`.  When the status is running it cancels the VNet
instance and blocks on `stopErrC`; the channel is closed by the VNet goroutine
*before* that goroutine contends for `mu`, so after `stopLocked` returns the
goroutine's mutex-protected finalizer is still pending.  `stopErr` is the
error (if any) the goroutine sent on `stopErrC` before closing it. -/
def stopLocked (s : SvcState) (stopErr : Option Nat) : (Option (Option Nat)) × SvcState :=
  if s.status = Status.closed then
    (none, s)
  else if s.status = Status.notRunning then
    (some none, s)
  else
    (some stopErr, { s with status := Status.notRunning })

/-- `Service.Stop` (ignoring the RPC-context-cancellation escape hatch):
runs `stopLocked` under `mu` and converts its result. -/
def stop (s : SvcState) (stopErr : Option Nat) : RpcResult × SvcState :=
  match stopLocked s stopErr with
  | (none, s') => (RpcResult.compareFailed, s')
  | (some none, s') => (RpcResult.ok, s')
  | (some (some e), s') => (RpcResult.setupErr e, s')

/-- `Service.Close`: `stopLocked` followed by `s.status = statusClosed`,
all under `mu`.  Returns the error from `stopLocked` (`none` in the result's
first component means CompareFailed was returned). -/
def close (s : SvcState) (stopErr : Option Nat) : (Option (Option Nat)) × SvcState :=
  let r := stopLocked s stopErr
  (r.1, { r.2 with status := Status.closed })

/-- The mutex-protected tail of the VNet goroutine spawned by `Start`:
once `vnet.Run` has returned and `stopErrC` is closed, the goroutine acquires
`mu` and runs `s.status = statusNotRunning; cancelLongCtx(nil)`.  This step
can only run while such a goroutine is pending. -/
def vnetExit (s : SvcState) : SvcState :=
  match s.finalizers with
  | 0 => s
  | n + 1 => { s with status := Status.notRunning, finalizers := n }

/-- Events of a Service history: each is one acquisition of `mu`. -/
inductive Event where
  | startOp (setup : Option Nat)
  | stopOp (stopErr : Option Nat)
  | closeOp (stopErr : Option Nat)
  | vnetExitOp
  deriving DecidableEq, Repr

/-- Apply one event to the state (discarding the RPC result). -/
def stepEv (s : SvcState) : Event → SvcState
  | Event.startOp setup => (start s setup).2
  | Event.stopOp e => (stop s e).2
  | Event.closeOp e => (close s e).2
  | Event.vnetExitOp => vnetExit s

/-- Run a history of events from the freshly constructed Service. -/
def execSvc (evs : List Event) : SvcState :=
  evs.foldl stepEv initSvc

end TermVnet

namespace VnetSetup

/-- The `osConfig` structure from src/lib/vnet/setup.go: host configuration
instructions.  Strings are abstracted as naturals where their content is
irrelevant. -/
structure OsConfig where
  tunName : Nat
  tunIPv6 : Nat
  dnsAddr : Nat
  dnsZones : List Nat
  deriving DecidableEq, Repr

/-- Environment for one tick of the OS-configuration loop: the outcome of the
`dnsZones()` call and of the `configureOS` call at that tick
(`Except.error e` / `some e` model non-nil errors). -/
structure TickEnv where
  zonesRes : Except Nat (List Nat)
  configRes : Option Nat
  deriving Repr

/-- One iteration event inside the `for`/`select` loop of
`createAndSetupTUNDeviceAsRoot`: either the 10-second ticker fires (with that
tick's environment) or the context is observed as done. -/
inductive LoopEvent where
  | tick (env : TickEnv)
  | ctxDone
  deriving Repr

/-- Terminal or live outcome of the OS-configuration goroutine. -/
inductive LoopOutcome where
  /-- All events consumed, the goroutine is still in the loop with this cfg. -/
  | running (cfg : OsConfig)
  /-- The goroutine sent error `e` on `errCh` and returned: the loop is dead
  and no further ticks are processed. -/
  | errExit (e : Nat)
  /-- `ctx.Done()` fired: the loop broke out and the goroutine deconfigured
  the OS, sending `deconfigRes` (nil or not) on `errCh`. -/
  | shutdown (deconfigRes : Option Nat)
  deriving DecidableEq, Repr

/-- The ticker loop of `createAndSetupTUNDeviceAsRoot`
(src/lib/vnet/setup.go lines 147-169, identical in src/unnamed/part_004):
on each tick it refetches `dnsZones()` and calls `configureOS` with the
updated cfg; any error is sent on `errCh` and the goroutine returns; on
`ctx.Done()` it breaks out, deconfigures the OS with the empty `osConfig`
(that call's result is `deconfigRes`) and sends the result on `errCh`.
The second component of the result is the list of configurations actually
passed to `configureOS` during the loop, in order. -/
def osConfigLoop (deconfigRes : Option Nat) (cfg : OsConfig) :
    List LoopEvent → LoopOutcome × List OsConfig
  | [] => (LoopOutcome.running cfg, [])
  | LoopEvent.ctxDone :: _ => (LoopOutcome.shutdown deconfigRes, [])
  | LoopEvent.tick env :: rest =>
    match env.zonesRes with
    | Except.error e => (LoopOutcome.errExit e, [])
    | Except.ok zs =>
      let cfg' := { cfg with dnsZones := zs }
      match env.configRes with
      | some e => (LoopOutcome.errExit e, [cfg'])
      | none =>
        let r := osConfigLoop deconfigRes cfg' rest
        (r.1, cfg' :: r.2)

/-- The first error produced within one tick's body: the `dnsZones()` error
if any, otherwise the `configureOS` error if any. -/
def tickErr (env : TickEnv) : Option Nat :=
  match env.zonesRes with
  | Except.error e => some e
  | Except.ok _ => env.configRes

/-- Whether a loop event is an error-free ticker fire. -/
def tickOkEv : LoopEvent → Bool
  | LoopEvent.tick env => (tickErr env).isNone
  | LoopEvent.ctxDone => false

/-- The DNS zones fetched by a tick (empty for non-tick events and failed
fetches; only used on successful ticks). -/
def tickZones : LoopEvent → List Nat
  | LoopEvent.tick env =>
    match env.zonesRes with
    | Except.ok zs => zs
    | Except.error _ => []
  | LoopEvent.ctxDone => []

/-- One second-granularity event in the wait loop at the end of
`AdminSubcommand` (src/lib/vnet/setup.go lines 95-108): either the one-second
ticker fires and `os.Stat(socketPath)` reports whether the socket file still
exists, or a value arrives on `errCh` from the OS-configuration goroutine. -/
inductive WaitEvent where
  | tick (socketExists : Bool)
  | errReady (e : Option Nat)
  deriving DecidableEq, Repr

/-- How `AdminSubcommand`'s wait loop terminated. -/
structure WaitOutcome where
  /-- True when the loop called `cancel()` (socket gone) before its final
  blocking read of `errCh`; false when `errCh` fired first. -/
  canceledFirst : Bool
  /-- The value returned, always drawn from the loop's error channel. -/
  result : Option Nat
  deriving DecidableEq, Repr

/-- The wait loop of `AdminSubcommand`: on each ticker fire it stats the
socket path; if the file no longer exists it cancels the internal context and
returns the next value from `errCh` (which is `afterCancel`: the value the
OS-configuration goroutine sends once the cancellation makes it deconfigure
and exit); if `errCh` fires first, that value is returned directly.  `none`
models the loop still blocking. -/
def adminWaitLoop (afterCancel : Option Nat) :
    List WaitEvent → Option WaitOutcome
  | [] => none
  | WaitEvent.tick true :: rest => adminWaitLoop afterCancel rest
  | WaitEvent.tick false :: _ => some ⟨true, afterCancel⟩
  | WaitEvent.errReady e :: _ => some ⟨false, e⟩

/-- The first thing `SetupAndRun`'s select statement observes after the
admin-subcommand task and the TUN-receiving goroutine have been launched:
either the caller's context is done, or a value arrives on
`tunOrAdminSubcommandErrC` (an error, or nil with `tun` either set by the
receiving goroutine or still nil). -/
inductive Signal where
  | ctxDone (e : Nat)
  | chanVal (err : Option Nat) (tunSet : Bool)
  deriving DecidableEq, Repr

/-- Abstract environment of one `SetupAndRun` call: outcomes of its fallible
setup steps (`some e` models a non-nil error). -/
structure SetupEnv where
  ipv6Res : Option Nat
  socketRes : Option Nat
  firstSignal : Signal
  nsRes : Option Nat
  deriving DecidableEq, Repr

/-- Errors returned by `SetupAndRun`: a wrapped collaborator/context error, or
the internal "no TUN device created, execAdminSubcommand must have returned
early with no error" bug report. -/
inductive SetupErr where
  | wrapped (e : Nat)
  | noTunBug
  deriving DecidableEq, Repr

/-- Observable outcome of `SetupAndRun` (src/unnamed/part_004 lines 43-126):
whether it returned a process manager or an error, whether
`newProcessManager` had run by then, whether the deferred `pm.Close()` ran
before returning (it runs exactly when `success` is still false), and how
many background tasks had been registered on the manager. -/
structure RunOutcome where
  result : Except SetupErr Unit
  pmCreated : Bool
  pmClosed : Bool
  tasks : Nat
  deriving Repr

/-- `SetupAndRun`: IPv6Prefix, then `newProcessManager` with
`defer (if !success then pm.Close())`, then `createUnixSocket` plus the
socket-closing task, the admin-subcommand task, the select on ctx /
`tunOrAdminSubcommandErrC`, `newNetworkStack`, the network-stack task, and
finally `success = true`. -/
def setupAndRun (env : SetupEnv) : RunOutcome :=
  match env.ipv6Res with
  | some e => ⟨Except.error (SetupErr.wrapped e), false, false, 0⟩
  | none =>
    match env.socketRes with
    | some e => ⟨Except.error (SetupErr.wrapped e), true, true, 0⟩
    | none =>
      match env.firstSignal with
      | Signal.ctxDone e => ⟨Except.error (SetupErr.wrapped e), true, true, 2⟩
      | Signal.chanVal (some e) _ => ⟨Except.error (SetupErr.wrapped e), true, true, 2⟩
      | Signal.chanVal none false => ⟨Except.error SetupErr.noTunBug, true, true, 2⟩
      | Signal.chanVal none true =>
        match env.nsRes with
        | some e => ⟨Except.error (SetupErr.wrapped e), true, true, 2⟩
        | none => ⟨Except.ok (), true, false, 3⟩

end VnetSetup

namespace Alloc

/-- Modelled from the spec: the address allocator of section 4.1 is part of
the VNet network stack, whose implementation file is not under src/ (only the
spec describes `Allocate` / `Lookup` / `Release`).  An AppKey identifies an
application: profile name, optional leaf cluster name, app name. -/
structure AppKey where
  profileName : String
  leafClusterName : Option String
  appName : String
  deriving DecidableEq, Repr

/-- Modelled from the spec: the allocator's lease table over a bounded pool of
synthetic addresses `0, 1, ..., pool - 1` (abstracting the IPv6 /64 suffix
space); `leases` is the lease table binding AppKeys to addresses. -/
structure Allocator where
  pool : Nat
  leases : List (AppKey × Nat)
  deriving DecidableEq, Repr

/-- The allocator with an empty lease table. -/
def empty (pool : Nat) : Allocator := { pool := pool, leases := [] }

/-- Address currently leased to `k`, if any. -/
def lookupKey (a : Allocator) (k : AppKey) : Option Nat :=
  (a.leases.find? fun l => l.1 = k).map fun l => l.2

/-- Modelled from the spec: `Lookup(Address) -> AppKey, found`, the reverse
lookup used by the connection handler. -/
def lookupAddr (a : Allocator) (addr : Nat) : Option AppKey :=
  (a.leases.find? fun l => l.2 = addr).map fun l => l.1

/-- Modelled from the spec: `Allocate(AppKey) -> Address` returns an existing
lease's address if present; otherwise assigns the next free address from the
pool deterministically (sequential assignment) and records the lease; fails
with PoolExhausted (modelled as `Except.error ()`) if the space is fully
leased. -/
def Allocate (a : Allocator) (k : AppKey) : Except Unit (Nat × Allocator) :=
  match lookupKey a k with
  | some addr => Except.ok (addr, a)
  | none =>
    match (List.range a.pool).find? (fun n => a.leases.all fun l => l.2 ≠ n) with
    | some addr => Except.ok (addr, { a with leases := (k, addr) :: a.leases })
    | none => Except.error ()

/-- Modelled from the spec: `Release(AppKey)` frees the lease for reuse. -/
def Release (a : Allocator) (k : AppKey) : Allocator :=
  { a with leases := a.leases.filter fun l => l.1 ≠ k }

/-- A call in a history of the allocator. -/
inductive AllocOp where
  | allocate (k : AppKey)
  | release (k : AppKey)
  deriving DecidableEq, Repr

/-- Effect of one call on the lease table (a failed `Allocate` leaves the
table unchanged). -/
def step (a : Allocator) : AllocOp → Allocator
  | AllocOp.allocate k =>
    match Allocate a k with
    | Except.ok r => r.2
    | Except.error _ => a
  | AllocOp.release k => Release a k

/-- The allocator state after an arbitrary sequence of Allocate/Release
calls starting from the empty table. -/
def execOps (pool : Nat) (ops : List AllocOp) : Allocator :=
  ops.foldl step (empty pool)

end Alloc

namespace Examples

/-- A concrete issuer whose CheckCert accepts subjects equal to 0 and whose
first IssueCert call returns a certificate expiring at time 10. -/
def exIssuer : CertCheck.IssuerModel where
  checkCert c := decide (c.sub = 0)
  issueCert k := if k = 0 then Except.ok ⟨10, 0⟩ else Except.error 42
  leafOk _ := true

/-- A concrete issuer whose IssueCert always fails with error 7. -/
def exIssuerFail : CertCheck.IssuerModel where
  checkCert c := decide (c.sub = 0)
  issueCert _ := Except.error 7
  leafOk _ := true

/-- Fresh checker state: no cached certificate, no issuance calls. -/
def exStateEmpty : CertCheck.CheckerState := { cert := none, issueCalls := 0 }

/-- Checker state with a certificate expiring at 10 already cached. -/
def exStateCached : CertCheck.CheckerState := { cert := some ⟨10, 0⟩, issueCalls := 1 }

/-- A tick environment where both dnsZones and configureOS succeed. -/
def okTick : VnetSetup.TickEnv := { zonesRes := Except.ok [3], configRes := none }

/-- A tick environment where dnsZones succeeds but configureOS fails. -/
def badTick : VnetSetup.TickEnv := { zonesRes := Except.ok [3], configRes := some 7 }

/-- An initial host configuration for the OS-configuration loop. -/
def cfg0 : VnetSetup.OsConfig := { tunName := 1, tunIPv6 := 2, dnsAddr := 3, dnsZones := [] }

/-- A SetupAndRun environment where creating the unix socket fails. -/
def exSetupEnv : VnetSetup.SetupEnv :=
  { ipv6Res := none, socketRes := some 3
    firstSignal := VnetSetup.Signal.chanVal none true, nsRes := none }

/-- Concrete AppKeys for the allocator examples. -/
def k1 : Alloc.AppKey := { profileName := "p", leafClusterName := none, appName := "a" }

/-- A second, distinct AppKey. -/
def k2 : Alloc.AppKey := { profileName := "p", leafClusterName := none, appName := "b" }

end Examples

/-- Helper: filtering by a weaker predicate does not change the first match of
a stronger one. -/
theorem find?_filter_of_imp {α : Type} (p q : α → Bool) (l : List α)
    (h : ∀ x, p x = true → q x = true) :
    (l.filter q).find? p = l.find? p := by
  induction l with
  | nil => rfl
  | cons a l ih =>
    by_cases hq : q a = true
    · by_cases hp : p a = true
      · simp [List.filter_cons, hq, List.find?, hp]
      · simp only [List.filter_cons, hq, if_true, List.find?, hp]
        simpa [List.find?, hp] using ih
    · have hp : p a = false := by
        cases hpa : p a with
        | false => rfl
        | true => exact absurd (h a hpa) hq
      simp only [List.filter_cons, hq, if_false, List.find?, hp]
      simpa [List.find?, hp] using ih

/-- Helper: the first error of an empty completion batch. -/
theorem pm_firstErrIn_nil (results : List (Option Nat)) :
    PM.firstErrIn results [] = none := rfl

/-- Helper: head of a filterMap over a cons cell. -/
theorem head?_filterMap_cons {α β : Type} (f : α → Option β) (a : α) (l : List α) :
    ((a :: l).filterMap f).head? = (f a).orElse fun _ => (l.filterMap f).head? := by
  cases h : f a with
  | some b => simp [List.filterMap_cons, h, Option.orElse]
  | none => simp [List.filterMap_cons, h, Option.orElse]

/-- Helper: the first error of a completion batch starting with task i. -/
theorem pm_firstErrIn_cons (results : List (Option Nat)) (i : Nat) (rest : List Nat) :
    PM.firstErrIn results (i :: rest)
      = (results.getD i none).orElse fun _ => PM.firstErrIn results rest :=
  head?_filterMap_cons (fun j => results.getD j none) i rest

/-- Helper: effect of a batch of distinct task completions on a manager
state: pending membership, the retained first error, and cancellation. -/
theorem pm_runFrom_spec (results : List (Option Nat)) :
    ∀ (order : List Nat) (s : PM.ManagerState),
      order.Nodup → s.pending.Nodup → (∀ i ∈ order, i ∈ s.pending) →
      (∀ j, j ∈ (PM.runFrom results order s).pending ↔ (j ∈ s.pending ∧ j ∉ order)) ∧
      (PM.runFrom results order s).firstErr
          = (s.firstErr.orElse fun _ => PM.firstErrIn results order) ∧
      (PM.runFrom results order s).canceled
          = (s.canceled || (PM.firstErrIn results order).isSome) := by
  intro order
  induction order with
  | nil =>
    intro s _ _ _
    refine ⟨fun j => by simp [PM.runFrom], ?_, ?_⟩
    · show s.firstErr = s.firstErr.orElse fun _ => PM.firstErrIn results []
      cases s.firstErr <;> rfl
    · show s.canceled = (s.canceled || (PM.firstErrIn results []).isSome)
      cases s.canceled <;> rfl
  | cons i rest ih =>
    intro s hnd hpnd hmem
    have hi : i ∈ s.pending := hmem i (List.mem_cons_self i rest)
    have hirest : i ∉ rest := (List.nodup_cons.mp hnd).1
    have hndr : rest.Nodup := (List.nodup_cons.mp hnd).2
    have hstep : PM.taskDone s i (results.getD i none) =
        { s with
          pending := s.pending.erase i
          firstErr := s.firstErr.orElse fun _ => results.getD i none
          canceled := s.canceled || (results.getD i none).isSome } := by
      simp [PM.taskDone, hi]
    have hpnd1 : (s.pending.erase i).Nodup := hpnd.erase i
    have hmem1 : ∀ j ∈ rest, j ∈ s.pending.erase i := by
      intro j hj
      have hne : j ≠ i := fun h => hirest (h ▸ hj)
      exact (List.Nodup.mem_erase_iff hpnd).mpr ⟨hne, hmem j (List.mem_cons_of_mem i hj)⟩
    have hrun : PM.runFrom results (i :: rest) s
        = PM.runFrom results rest (PM.taskDone s i (results.getD i none)) := rfl
    obtain ⟨ihp, ihe, ihc⟩ := ih (PM.taskDone s i (results.getD i none)) hndr
      (by rw [hstep]; exact hpnd1) (by rw [hstep]; exact hmem1)
    refine ⟨?_, ?_, ?_⟩
    · intro j
      rw [hrun, ihp j, hstep]
      show (j ∈ s.pending.erase i ∧ j ∉ rest) ↔ (j ∈ s.pending ∧ j ∉ i :: rest)
      rw [List.Nodup.mem_erase_iff hpnd]
      constructor
      · rintro ⟨⟨hji, hjp⟩, hjr⟩
        refine ⟨hjp, ?_⟩
        intro hmemc
        rcases List.mem_cons.mp hmemc with h | h
        · exact hji h
        · exact hjr h
      · rintro ⟨hjp, hjor⟩
        rw [List.mem_cons] at hjor
        push_neg at hjor
        exact ⟨⟨hjor.1, hjp⟩, hjor.2⟩
    · rw [hrun, ihe, hstep]
      show ((s.firstErr.orElse fun _ => results.getD i none).orElse
            fun _ => PM.firstErrIn results rest)
          = s.firstErr.orElse fun _ => PM.firstErrIn results (i :: rest)
      rw [pm_firstErrIn_cons]
      cases s.firstErr <;> rfl
    · rw [hrun, ihc, hstep]
      show (s.canceled || (results.getD i none).isSome
              || (PM.firstErrIn results rest).isSome)
          = (s.canceled || (PM.firstErrIn results (i :: rest)).isSome)
      rw [pm_firstErrIn_cons]
      cases hri : results.getD i none with
      | some e => simp [Option.orElse]
      | none => simp [Option.orElse]

/-- Claim C3: for a ProcessManager with any set of registered background
tasks and any real-time completion order: once all tasks have returned, no
task is pending; if some task returned a non-nil error then the shared
context is canceled (cancellation propagates to every task); Wait returns the
first task error as the aggregate error, and Close returns the same; and
while any registered task has not yet returned, Wait still blocks. -/
theorem processManager_task_error_cancels_and_aggregates
    (results : List (Option Nat)) (order : List Nat)
    (hnd : order.Nodup)
    (hord : ∀ i ∈ order, i < results.length)
    (hcov : ∀ i < results.length, i ∈ order) :
    (PM.exec results order).pending = [] ∧
    (∀ e, PM.firstErrIn results order = some e →
        (PM.exec results order).canceled = true) ∧
    PM.wait (PM.exec results order) = some (PM.firstErrIn results order) ∧
    (PM.close (PM.exec results order)).2 = some (PM.firstErrIn results order) ∧
    (∀ order2 : List Nat, order2.Nodup →
      (∀ i ∈ order2, i < results.length) →
      (∃ i, i < results.length ∧ i ∉ order2) →
      PM.wait (PM.runFrom results order2 (PM.mkManager results.length)) = none) := by
  have hbase : (PM.mkManager results.length).pending.Nodup := by
    show (List.range results.length).Nodup
    exact List.nodup_range _
  have hbmem : ∀ i ∈ order, i ∈ (PM.mkManager results.length).pending := by
    intro i hi
    show i ∈ List.range results.length
    exact List.mem_range.mpr (hord i hi)
  obtain ⟨hp, he, hc⟩ := pm_runFrom_spec results order (PM.mkManager results.length)
    hnd hbase hbmem
  have hfe : (PM.exec results order).firstErr = PM.firstErrIn results order := by
    show (PM.runFrom results order (PM.mkManager results.length)).firstErr = _
    rw [he]
    rfl
  have hpnil : (PM.exec results order).pending = [] := by
    rw [List.eq_nil_iff_forall_not_mem]
    intro j hj
    obtain ⟨hjp, hjo⟩ := (hp j).mp hj
    have hjlt : j < results.length := List.mem_range.mp hjp
    exact hjo (hcov j hjlt)
  refine ⟨hpnil, ?_, ?_, ?_, ?_⟩
  · intro e hfee
    show (PM.runFrom results order (PM.mkManager results.length)).canceled = true
    rw [hc, hfee]
    rfl
  · simp only [PM.wait]
    rw [if_pos hpnil, hfe]
  · show PM.wait (PM.cancelScope (PM.exec results order)) = some (PM.firstErrIn results order)
    have hcp : (PM.cancelScope (PM.exec results order)).pending = [] := hpnil
    simp only [PM.wait]
    rw [if_pos hcp]
    show some (PM.exec results order).firstErr = _
    rw [hfe]
  · intro order2 hnd2 hord2 hex
    obtain ⟨i, hilt, hio⟩ := hex
    have hbmem2 : ∀ j ∈ order2, j ∈ (PM.mkManager results.length).pending := by
      intro j hj
      show j ∈ List.range results.length
      exact List.mem_range.mpr (hord2 j hj)
    obtain ⟨hp2, _, _⟩ := pm_runFrom_spec results order2 (PM.mkManager results.length)
      hnd2 hbase hbmem2
    have hin : i ∈ (PM.runFrom results order2 (PM.mkManager results.length)).pending :=
      (hp2 i).mpr ⟨List.mem_range.mpr hilt, hio⟩
    have hne : (PM.runFrom results order2 (PM.mkManager results.length)).pending ≠ [] := by
      intro hnil
      rw [hnil] at hin
      exact List.not_mem_nil i hin
    simp only [PM.wait]
    rw [if_neg hne]

/-- Closed witness for the C3 theorem: three tasks finishing in the order
1, 0, 2 where task 1 fails with error 5 and task 2 with error 3: Wait returns
error 5, the first one in completion order. -/
theorem processManager_task_error_cancels_and_aggregates_wit :
    PM.wait (PM.exec [none, some 5, some 3] [1, 0, 2]) = some (some 5) :=
  (processManager_task_error_cancels_and_aggregates [none, some 5, some 3]
    [1, 0, 2] (by decide) (by decide) (by decide)).2.2.1

/-- Claim C1: GetCheckedCert returns the cached certificate without any
issuance call when the cache passes checkCert (cached, unexpired against the
checker's clock, accepted by the issuer's CheckCert); otherwise it invokes
IssueCert exactly once, stores its (leaf-initialized) result as the new cached
certificate and returns it; and a cached certificate whose expiry lies before
the clock never passes checkCert, so such a call transparently reissues. -/
theorem certChecker_getCheckedCert_cache_and_reissue
    (m : CertCheck.IssuerModel) (now : Nat) (s : CertCheck.CheckerState) :
    (∀ c, s.cert = some c → now ≤ c.notAfter → m.checkCert c = true →
      CertCheck.getCheckedCert m now s = (Except.ok c, s)) ∧
    (CertCheck.checkCert m now s.cert = false →
      ∀ c, m.issueCert s.issueCalls = Except.ok c → m.leafOk c = true →
        CertCheck.getCheckedCert m now s =
          (Except.ok c, { cert := some c, issueCalls := s.issueCalls + 1 })) ∧
    (∀ c, s.cert = some c → c.notAfter < now →
      CertCheck.checkCert m now s.cert = false) := by
  refine ⟨?_, ?_, ?_⟩
  · intro c hc hexp hchk
    have h : CertCheck.checkCert m now (some c) = true := by
      simp [CertCheck.checkCert, hexp, hchk]
    simp [CertCheck.getCheckedCert, hc, h]
  · intro h c hic hleaf
    simp [CertCheck.getCheckedCert, h, hic, hleaf]
  · intro c hc hlt
    simp [CertCheck.checkCert, hc, Nat.not_le.mpr hlt]

/-- Closed witness for the C1 theorem: with the cache holding a certificate
expiring at 10 and the clock at 5, GetCheckedCert returns the cached
certificate and leaves the state untouched. -/
theorem certChecker_getCheckedCert_cache_and_reissue_wit :
    CertCheck.getCheckedCert Examples.exIssuer 5 Examples.exStateCached =
      (Except.ok ⟨10, 0⟩, Examples.exStateCached) :=
  (certChecker_getCheckedCert_cache_and_reissue Examples.exIssuer 5
    Examples.exStateCached).1 ⟨10, 0⟩ rfl (by decide) (by decide)

/-- Claim C5: when the issuer's IssueCert fails, GetCheckedCert surfaces that
error in the same call with exactly one issuance attempt (the invocation
counter grows by exactly one, so there is no automatic retry) and the cached
certificate is left unchanged, so the next call starts from the same cache. -/
theorem certChecker_issue_failure_surfaced_cache_unchanged
    (m : CertCheck.IssuerModel) (now : Nat) (s : CertCheck.CheckerState) (e : Nat)
    (hchk : CertCheck.checkCert m now s.cert = false)
    (hissue : m.issueCert s.issueCalls = Except.error e) :
    CertCheck.getCheckedCert m now s =
      (Except.error (CertCheck.CertError.issuer e),
        { cert := s.cert, issueCalls := s.issueCalls + 1 }) := by
  simp [CertCheck.getCheckedCert, hchk, hissue]

/-- Closed witness for the C5 theorem: a failing issuer propagates its error 7
and the cache stays empty. -/
theorem certChecker_issue_failure_surfaced_cache_unchanged_wit :
    CertCheck.getCheckedCert Examples.exIssuerFail 5 Examples.exStateEmpty =
      (Except.error (CertCheck.CertError.issuer 7), { cert := none, issueCalls := 1 }) :=
  certChecker_issue_failure_surfaced_cache_unchanged Examples.exIssuerFail 5
    Examples.exStateEmpty 7 rfl rfl

/-- Helper: once a certificate passing checkCert is cached, any number of
further GetCheckedCert calls return it and leave the state unchanged. -/
theorem getCheckedCertN_cached (m : CertCheck.IssuerModel) (now : Nat)
    (c : CertCheck.Cert) (k : Nat) :
    ∀ s : CertCheck.CheckerState, s.cert = some c →
      CertCheck.checkCert m now (some c) = true →
      CertCheck.getCheckedCertN m now k s = (List.replicate k (Except.ok c), s) := by
  induction k with
  | zero => intro s hc h; simp [CertCheck.getCheckedCertN]
  | succ k ih =>
    intro s hc h
    have h1 : CertCheck.getCheckedCert m now s = (Except.ok c, s) := by
      simp [CertCheck.getCheckedCert, hc, h]
    simp [CertCheck.getCheckedCertN, h1, ih s hc h, List.replicate_succ]

/-- Claim C6: N serialized GetCheckedCert calls (the certMu mutex serializes
any N concurrent callers) on a checker with no valid cached certificate
trigger exactly one IssueCert invocation — the issuance counter grows by
exactly one — and every one of the N callers receives the single issued
certificate, provided the issued certificate itself parses and passes
validation at the current clock. -/
theorem certChecker_concurrent_calls_single_issuance
    (m : CertCheck.IssuerModel) (now : Nat) (s : CertCheck.CheckerState)
    (n : Nat) (c : CertCheck.Cert)
    (hn : 1 ≤ n)
    (hchk : CertCheck.checkCert m now s.cert = false)
    (hissue : m.issueCert s.issueCalls = Except.ok c)
    (hleaf : m.leafOk c = true)
    (hvalid : CertCheck.checkCert m now (some c) = true) :
    CertCheck.getCheckedCertN m now n s =
      (List.replicate n (Except.ok c),
        { cert := some c, issueCalls := s.issueCalls + 1 }) := by
  obtain ⟨k, rfl⟩ : ∃ k, n = k + 1 := ⟨n - 1, by omega⟩
  have h1 : CertCheck.getCheckedCert m now s =
      (Except.ok c, { cert := some c, issueCalls := s.issueCalls + 1 }) := by
    simp [CertCheck.getCheckedCert, hchk, hissue, hleaf]
  have h2 := getCheckedCertN_cached m now c k
    { cert := some c, issueCalls := s.issueCalls + 1 } rfl hvalid
  simp [CertCheck.getCheckedCertN, h1, h2, List.replicate_succ]

/-- Closed witness for the C6 theorem: three concurrent callers on an empty
cache all get the single certificate issued by the one IssueCert call. -/
theorem certChecker_concurrent_calls_single_issuance_wit :
    CertCheck.getCheckedCertN Examples.exIssuer 5 3 Examples.exStateEmpty =
      (List.replicate 3 (Except.ok ⟨10, 0⟩), { cert := some ⟨10, 0⟩, issueCalls := 1 }) :=
  certChecker_concurrent_calls_single_issuance Examples.exIssuer 5
    Examples.exStateEmpty 3 ⟨10, 0⟩ (by decide) rfl rfl rfl (by decide)

/-- Counterexample to claim C4: for the teleterm VNet Service, a second Close
after a completed first Close does not succeed with the first call's result —
the first Close (on a service that is not running) returns nil, while the
second returns the CompareFailed "VNet service has been closed" error (the
`none` outcome of stopLocked). -/
theorem service_close_second_call_fails_cex :
    (TermVnet.close TermVnet.initSvc none).1 = some none ∧
    (TermVnet.close (TermVnet.close TermVnet.initSvc none).2 none).1 = none :=
  ⟨rfl, rfl⟩

/-- Claim C4 (amended): ProcessManager.Close blocks until every background
task has exited, returns the aggregate error, and is idempotent (a repeated
Close returns the same result and leaves the same state); the teleterm VNet
Service's Close also blocks until the stopped state is reached and leaves the
status closed, but a second Service.Close returns the CompareFailed error
rather than repeating the first call's result. -/
theorem close_idempotent_for_pm_but_not_service
    (s : PM.ManagerState) (hs : s.pending = [])
    (sv : TermVnet.SvcState) (e1 e2 : Option Nat) :
    (PM.close s).2 = some s.firstErr ∧
    (PM.close (PM.close s).1).2 = some s.firstErr ∧
    (PM.close (PM.close s).1).1 = (PM.close s).1 ∧
    (∀ t : PM.ManagerState, t.pending ≠ [] → (PM.close t).2 = none) ∧
    ((TermVnet.close sv e1).2).status = TermVnet.Status.closed ∧
    (TermVnet.close ((TermVnet.close sv e1).2) e2).1 = none := by
  refine ⟨?_, ?_, rfl, ?_, rfl, rfl⟩
  · simp [PM.close, PM.cancelScope, PM.wait, hs]
  · simp [PM.close, PM.cancelScope, PM.wait, hs]
  · intro t ht
    simp [PM.close, PM.cancelScope, PM.wait, ht]

/-- Closed witness for the amended C4 theorem: a manager whose tasks have all
exited with aggregate error 4 yields that error from Close. -/
theorem close_idempotent_for_pm_but_not_service_wit :
    (PM.close ⟨3, [], some 4, false⟩).2 = some (some 4) :=
  (close_idempotent_for_pm_but_not_service ⟨3, [], some 4, false⟩ rfl
    ⟨TermVnet.Status.running, 1, 1⟩ none none).1

/-- Claim C9, failing-input evaluation: on the history Start-then-Close, the
Service reaches statusClosed; but the VNet goroutine's mutex-protected tail
(which necessarily runs after Close releases the mutex, since Close held it
while draining stopErrC) then overwrites the status with statusNotRunning, so
a subsequent Start succeeds and launches a second VNet instance — the Closed
state is escaped, contradicting Close's documented "prevents it from being
started again" and the claim that Start after Close always fails. -/
theorem service_closed_state_escape_bug :
    (TermVnet.execSvc [TermVnet.Event.startOp none, TermVnet.Event.closeOp none]).status
        = TermVnet.Status.closed ∧
    (TermVnet.execSvc [TermVnet.Event.startOp none, TermVnet.Event.closeOp none,
        TermVnet.Event.vnetExitOp]).status = TermVnet.Status.notRunning ∧
    (TermVnet.start (TermVnet.execSvc [TermVnet.Event.startOp none,
        TermVnet.Event.closeOp none, TermVnet.Event.vnetExitOp]) none).1
        = TermVnet.RpcResult.ok ∧
    (TermVnet.start (TermVnet.execSvc [TermVnet.Event.startOp none,
        TermVnet.Event.closeOp none, TermVnet.Event.vnetExitOp]) none).2.instances = 2 :=
  ⟨rfl, rfl, rfl, rfl⟩

/-- Counterexample to claim C2: a single configureOS error (code 7) on the
first tick makes the OS-configuration loop send the error on errCh and exit —
the following (error-free) tick is never processed, so the loop does not
retry on the next tick, and AdminSubcommand, receiving the error from errCh,
returns, terminating the admin process. -/
theorem osConfigLoop_single_error_exits_cex :
    VnetSetup.osConfigLoop none Examples.cfg0
        [VnetSetup.LoopEvent.tick Examples.badTick,
         VnetSetup.LoopEvent.tick Examples.okTick]
      = (VnetSetup.LoopOutcome.errExit 7, [{ Examples.cfg0 with dnsZones := [3] }]) :=
  rfl

/-- Helper: on error-free ticks the loop keeps running, performing one
configureOS call per tick whose zones are the ones freshly fetched by that
tick. -/
theorem osConfigLoop_all_ok (deconfigRes : Option Nat) :
    ∀ (events : List VnetSetup.LoopEvent) (cfg : VnetSetup.OsConfig),
      (∀ ev ∈ events, VnetSetup.tickOkEv ev = true) →
      (VnetSetup.osConfigLoop deconfigRes cfg events).2.map (fun c => c.dnsZones)
          = events.map VnetSetup.tickZones ∧
      ∃ cfg2, (VnetSetup.osConfigLoop deconfigRes cfg events).1
          = VnetSetup.LoopOutcome.running cfg2 := by
  intro events
  induction events with
  | nil => exact fun cfg _ => ⟨rfl, cfg, rfl⟩
  | cons ev rest ih =>
    intro cfg h
    have hev := h ev (List.mem_cons_self ev rest)
    cases ev with
    | ctxDone => exact absurd hev (by simp [VnetSetup.tickOkEv])
    | tick env =>
      cases hz : env.zonesRes with
      | error e =>
        exfalso
        rw [VnetSetup.tickOkEv] at hev
        rw [VnetSetup.tickErr, hz] at hev
        exact Bool.noConfusion hev
      | ok zs =>
        have hc : env.configRes = none := by
          rw [VnetSetup.tickOkEv] at hev
          rw [VnetSetup.tickErr, hz] at hev
          exact Option.isNone_iff_eq_none.mp hev
        obtain ⟨ih1, cfg2, ih2⟩ := ih { cfg with dnsZones := zs }
          (fun ev2 h2 => h ev2 (List.mem_cons_of_mem _ h2))
        have hstep : VnetSetup.osConfigLoop deconfigRes cfg
              (VnetSetup.LoopEvent.tick env :: rest)
            = ((VnetSetup.osConfigLoop deconfigRes { cfg with dnsZones := zs } rest).1,
               { cfg with dnsZones := zs }
                 :: (VnetSetup.osConfigLoop deconfigRes { cfg with dnsZones := zs } rest).2) := by
          simp [VnetSetup.osConfigLoop, hz, hc]
        rw [hstep]
        refine ⟨?_, cfg2, ih2⟩
        show zs :: _ = VnetSetup.tickZones (VnetSetup.LoopEvent.tick env) :: rest.map _
        rw [VnetSetup.tickZones, hz, ih1]

/-- Helper: the first erroring tick terminates the loop with that error,
regardless of any events that would have followed. -/
theorem osConfigLoop_first_error_exits (deconfigRes : Option Nat) :
    ∀ (pre : List VnetSetup.LoopEvent) (cfg : VnetSetup.OsConfig)
      (post : List VnetSetup.LoopEvent) (env : VnetSetup.TickEnv) (e : Nat),
      (∀ ev ∈ pre, VnetSetup.tickOkEv ev = true) →
      VnetSetup.tickErr env = some e →
      (VnetSetup.osConfigLoop deconfigRes cfg
          (pre ++ VnetSetup.LoopEvent.tick env :: post)).1
        = VnetSetup.LoopOutcome.errExit e := by
  intro pre
  induction pre with
  | nil =>
    intro cfg post env e _ herr
    cases hz : env.zonesRes with
    | error e2 =>
      have he2 : e2 = e := by
        rw [VnetSetup.tickErr, hz] at herr
        exact Option.some.inj herr
      subst he2
      simp [VnetSetup.osConfigLoop, hz]
    | ok zs =>
      have hc : env.configRes = some e := by
        rw [VnetSetup.tickErr, hz] at herr
        exact herr
      simp [VnetSetup.osConfigLoop, hz, hc]
  | cons ev rest ih =>
    intro cfg post env e hpre herr
    have hev := hpre ev (List.mem_cons_self ev rest)
    cases ev with
    | ctxDone => exact absurd hev (by simp [VnetSetup.tickOkEv])
    | tick env2 =>
      cases hz : env2.zonesRes with
      | error e2 =>
        exfalso
        rw [VnetSetup.tickOkEv] at hev
        rw [VnetSetup.tickErr, hz] at hev
        exact Bool.noConfusion hev
      | ok zs =>
        have hc : env2.configRes = none := by
          rw [VnetSetup.tickOkEv] at hev
          rw [VnetSetup.tickErr, hz] at hev
          exact Option.isNone_iff_eq_none.mp hev
        have hrest := ih { cfg with dnsZones := zs } post env e
          (fun ev2 h2 => hpre ev2 (List.mem_cons_of_mem _ h2)) herr
        simpa [VnetSetup.osConfigLoop, hz, hc] using hrest

/-- Claim C2 (amended): while no error occurs, the OS-configuration loop
re-applies host configuration on every (fixed-interval) tick — one
configureOS call per tick, using the DNS zones freshly fetched by that tick —
but the first dnsZones or configureOS error during the loop terminates the
loop with that error (sent on errCh, which makes the admin subcommand
return); a transient failure is not retried on the next tick. -/
theorem osConfigLoop_reapplies_until_first_error
    (deconfigRes : Option Nat) (cfg : VnetSetup.OsConfig) :
    (∀ events : List VnetSetup.LoopEvent,
      (∀ ev ∈ events, VnetSetup.tickOkEv ev = true) →
      (VnetSetup.osConfigLoop deconfigRes cfg events).2.map (fun c => c.dnsZones)
          = events.map VnetSetup.tickZones ∧
      ∃ cfg2, (VnetSetup.osConfigLoop deconfigRes cfg events).1
          = VnetSetup.LoopOutcome.running cfg2) ∧
    (∀ (pre post : List VnetSetup.LoopEvent) (env : VnetSetup.TickEnv) (e : Nat),
      (∀ ev ∈ pre, VnetSetup.tickOkEv ev = true) →
      VnetSetup.tickErr env = some e →
      (VnetSetup.osConfigLoop deconfigRes cfg
          (pre ++ VnetSetup.LoopEvent.tick env :: post)).1
        = VnetSetup.LoopOutcome.errExit e) :=
  ⟨fun events h => osConfigLoop_all_ok deconfigRes events cfg h,
   fun pre post env e hpre herr =>
     osConfigLoop_first_error_exits deconfigRes pre cfg post env e hpre herr⟩

/-- Closed witness for the amended C2 theorem: after one healthy tick, a
configureOS failure with code 7 on the second tick terminates the loop with
that error. -/
theorem osConfigLoop_reapplies_until_first_error_wit :
    (VnetSetup.osConfigLoop none Examples.cfg0
        [VnetSetup.LoopEvent.tick Examples.okTick,
         VnetSetup.LoopEvent.tick Examples.badTick]).1
      = VnetSetup.LoopOutcome.errExit 7 :=
  (osConfigLoop_reapplies_until_first_error none Examples.cfg0).2
    [VnetSetup.LoopEvent.tick Examples.okTick] [] Examples.badTick 7
    (by intro ev h
        have : ev = VnetSetup.LoopEvent.tick Examples.okTick := List.mem_singleton.mp h
        rw [this]
        rfl)
    rfl

/-- Claim C8: in AdminSubcommand's wait loop, as long as the socket file
exists only healthy ticks pass; at the first tick that finds the socket file
missing, the subcommand cancels its internal context before its final read
(canceledFirst = true) and returns whatever the OS-configuration goroutine
then delivers on the error channel; and the canceled context makes the
OS-configuration loop take its shutdown path (deconfigure and send on errCh)
instead of continuing. -/
theorem adminSubcommand_socket_deletion_cancels_and_returns
    (afterCancel : Option Nat) (pre rest : List VnetSetup.WaitEvent)
    (hpre : ∀ ev ∈ pre, ev = VnetSetup.WaitEvent.tick true) :
    VnetSetup.adminWaitLoop afterCancel
        (pre ++ VnetSetup.WaitEvent.tick false :: rest)
      = some { canceledFirst := true, result := afterCancel } ∧
    (∀ (cfg : VnetSetup.OsConfig) (evs : List VnetSetup.LoopEvent)
        (dres : Option Nat),
      (VnetSetup.osConfigLoop dres cfg (VnetSetup.LoopEvent.ctxDone :: evs)).1
        = VnetSetup.LoopOutcome.shutdown dres) := by
  refine ⟨?_, fun cfg evs dres => rfl⟩
  induction pre with
  | nil => rfl
  | cons ev pre2 ih =>
    have hev : ev = VnetSetup.WaitEvent.tick true := hpre ev (List.mem_cons_self ev pre2)
    rw [hev]
    show VnetSetup.adminWaitLoop afterCancel
        (pre2 ++ VnetSetup.WaitEvent.tick false :: rest) = _
    exact ih (fun ev2 h2 => hpre ev2 (List.mem_cons_of_mem _ h2))

/-- Closed witness for the C8 theorem: two healthy ticks, then the socket is
gone; the loop cancels and returns the channel value (here nil). -/
theorem adminSubcommand_socket_deletion_cancels_and_returns_wit :
    VnetSetup.adminWaitLoop none
        [VnetSetup.WaitEvent.tick true, VnetSetup.WaitEvent.tick true,
         VnetSetup.WaitEvent.tick false]
      = some { canceledFirst := true, result := none } :=
  (adminSubcommand_socket_deletion_cancels_and_returns none
    [VnetSetup.WaitEvent.tick true, VnetSetup.WaitEvent.tick true] []
    (by decide)).1

/-- Claim C10: whenever SetupAndRun returns an error after having created its
process manager (socket-creation failure, context cancellation during the
select, admin-subcommand error, missing TUN device, or network-stack
construction failure), the deferred cleanup has run pm.Close() before
returning; when it returns successfully the manager is handed to the caller
unclosed; and Close cancels the shared context of every registered background
task, including the socket-holding one. -/
theorem setupAndRun_failure_closes_process_manager (env : VnetSetup.SetupEnv) :
    (∀ e, (VnetSetup.setupAndRun env).result = Except.error e →
        (VnetSetup.setupAndRun env).pmCreated = true →
        (VnetSetup.setupAndRun env).pmClosed = true) ∧
    ((VnetSetup.setupAndRun env).result = Except.ok () →
        (VnetSetup.setupAndRun env).pmClosed = false) ∧
    (∀ t : PM.ManagerState, (PM.close t).1.canceled = true) := by
  obtain ⟨i, sc, fs, ns⟩ := env
  refine ⟨?_, ?_, fun t => rfl⟩
  · intro e he hc
    cases i with
    | some a => exact Bool.noConfusion hc
    | none =>
      cases sc with
      | some a => rfl
      | none =>
        cases fs with
        | ctxDone e2 => rfl
        | chanVal err tunSet =>
          cases err with
          | some a => rfl
          | none =>
            cases tunSet with
            | false => rfl
            | true =>
              cases ns with
              | some a => rfl
              | none => exact Except.noConfusion he
  · intro h
    cases i with
    | some a => exact Except.noConfusion h
    | none =>
      cases sc with
      | some a => exact Except.noConfusion h
      | none =>
        cases fs with
        | ctxDone e2 => exact Except.noConfusion h
        | chanVal err tunSet =>
          cases err with
          | some a => exact Except.noConfusion h
          | none =>
            cases tunSet with
            | false => exact Except.noConfusion h
            | true =>
              cases ns with
              | some a => exact Except.noConfusion h
              | none => rfl

/-- Closed witness for the C10 theorem: when unix-socket creation fails with
error 3, SetupAndRun reports the error and the process manager it created has
been closed. -/
theorem setupAndRun_failure_closes_process_manager_wit :
    (VnetSetup.setupAndRun Examples.exSetupEnv).pmClosed = true :=
  (setupAndRun_failure_closes_process_manager Examples.exSetupEnv).1
    (VnetSetup.SetupErr.wrapped 3) rfl rfl

/-- Helper: one Allocate or Release call preserves well-formedness of the
lease table (no AppKey listed twice, no address listed twice). -/
theorem alloc_wf_step (a : Alloc.Allocator)
    (hk : (a.leases.map Prod.fst).Nodup) (ha : (a.leases.map Prod.snd).Nodup)
    (op : Alloc.AllocOp) :
    ((Alloc.step a op).leases.map Prod.fst).Nodup ∧
    ((Alloc.step a op).leases.map Prod.snd).Nodup := by
  cases op with
  | release k =>
    constructor
    · exact List.Nodup.sublist (List.Sublist.map _ (List.filter_sublist _)) hk
    · exact List.Nodup.sublist (List.Sublist.map _ (List.filter_sublist _)) ha
  | allocate k =>
    cases hl : Alloc.lookupKey a k with
    | some addr =>
      have hAlloc : Alloc.Allocate a k = Except.ok (addr, a) := by
        simp only [Alloc.Allocate]
        rw [hl]
      have hstep : Alloc.step a (Alloc.AllocOp.allocate k) = a := by
        simp only [Alloc.step]
        rw [hAlloc]
      rw [hstep]
      exact ⟨hk, ha⟩
    | none =>
      cases hf : (List.range a.pool).find? (fun n => a.leases.all fun l => l.2 ≠ n) with
      | none =>
        have hAlloc : Alloc.Allocate a k = Except.error () := by
          simp only [Alloc.Allocate]
          rw [hl, hf]
        have hstep : Alloc.step a (Alloc.AllocOp.allocate k) = a := by
          simp only [Alloc.step]
          rw [hAlloc]
        rw [hstep]
        exact ⟨hk, ha⟩
      | some addr =>
        have hAlloc : Alloc.Allocate a k
            = Except.ok (addr, { a with leases := (k, addr) :: a.leases }) := by
          simp only [Alloc.Allocate]
          rw [hl, hf]
        have hstep : Alloc.step a (Alloc.AllocOp.allocate k)
            = { a with leases := (k, addr) :: a.leases } := by
          simp only [Alloc.step]
          rw [hAlloc]
        rw [hstep]
        have hfindnone : a.leases.find? (fun l => l.1 = k) = none := by
          rw [Alloc.lookupKey] at hl
          exact Option.map_eq_none.mp hl
        have hknot : k ∉ a.leases.map Prod.fst := by
          intro hmem
          rcases List.mem_map.mp hmem with ⟨p, hp, hpk⟩
          have hnp := List.find?_eq_none.mp hfindnone p hp
          exact hnp (decide_eq_true hpk)
        have hfree := List.find?_some hf
        have hanot : addr ∉ a.leases.map Prod.snd := by
          intro hmem
          rcases List.mem_map.mp hmem with ⟨p, hp, hpa⟩
          have hall := List.all_eq_true.mp hfree p hp
          exact (of_decide_eq_true hall) hpa
        constructor
        · exact List.nodup_cons.mpr ⟨hknot, hk⟩
        · exact List.nodup_cons.mpr ⟨hanot, ha⟩

/-- Helper: every allocator state reachable by a sequence of Allocate and
Release calls from the empty table has a well-formed lease table. -/
theorem alloc_execOps_wf (pool : Nat) (ops : List Alloc.AllocOp) :
    ((Alloc.execOps pool ops).leases.map Prod.fst).Nodup ∧
    ((Alloc.execOps pool ops).leases.map Prod.snd).Nodup := by
  suffices h : ∀ (l : List Alloc.AllocOp) (a : Alloc.Allocator),
      (a.leases.map Prod.fst).Nodup → (a.leases.map Prod.snd).Nodup →
      ((l.foldl Alloc.step a).leases.map Prod.fst).Nodup ∧
      ((l.foldl Alloc.step a).leases.map Prod.snd).Nodup by
    exact h ops (Alloc.empty pool) List.nodup_nil List.nodup_nil
  intro l
  induction l with
  | nil => exact fun a hk ha => ⟨hk, ha⟩
  | cons op rest ih =>
    intro a hk ha
    obtain ⟨hk2, ha2⟩ := alloc_wf_step a hk ha op
    exact ih (Alloc.step a op) hk2 ha2

/-- Claim C7: for every sequence of Allocate and Release calls starting from
the empty allocator, no two distinct AppKeys simultaneously hold the same
synthetic address; an AppKey holding a lease gets exactly that address back
from a repeated Allocate, with no state change; and any call other than a
Release of that very key preserves the key's leased address — so repeated
Allocate returns the same address until the key's lease is released. -/
theorem allocator_address_uniqueness (pool : Nat) (ops : List Alloc.AllocOp) :
    (∀ k1 a1 k2 a2, (k1, a1) ∈ (Alloc.execOps pool ops).leases →
        (k2, a2) ∈ (Alloc.execOps pool ops).leases → a1 = a2 → k1 = k2) ∧
    (∀ k addr, Alloc.lookupKey (Alloc.execOps pool ops) k = some addr →
        Alloc.Allocate (Alloc.execOps pool ops) k
          = Except.ok (addr, Alloc.execOps pool ops)) ∧
    (∀ (b : Alloc.Allocator) (k : Alloc.AppKey) (op : Alloc.AllocOp),
        op ≠ Alloc.AllocOp.release k → (Alloc.lookupKey b k).isSome = true →
        Alloc.lookupKey (Alloc.step b op) k = Alloc.lookupKey b k) := by
  obtain ⟨-, hsnd⟩ := alloc_execOps_wf pool ops
  refine ⟨?_, ?_, ?_⟩
  · intro k1 a1 k2 a2 h1 h2 heq
    subst heq
    have hpair := List.inj_on_of_nodup_map hsnd h1 h2 rfl
    exact congrArg Prod.fst hpair
  · intro k addr h
    simp [Alloc.Allocate, h]
  · intro b k op hne hsome
    cases op with
    | release k2 =>
      have hk2 : k2 ≠ k := fun h => hne (by rw [h])
      show Alloc.lookupKey
          { b with leases := b.leases.filter fun l => l.1 ≠ k2 } k
        = Alloc.lookupKey b k
      rw [Alloc.lookupKey, Alloc.lookupKey]
      have hff : ((b.leases.filter fun l => l.1 ≠ k2).find? fun l => l.1 = k)
          = b.leases.find? fun l => l.1 = k := by
        refine find?_filter_of_imp _ _ _ ?_
        intro x hx
        have hxk : x.1 = k := of_decide_eq_true hx
        exact decide_eq_true fun hcon => hk2 (by rw [← hxk, hcon])
      rw [hff]
    | allocate k2 =>
      cases hl : Alloc.lookupKey b k2 with
      | some a2 =>
        have hAlloc : Alloc.Allocate b k2 = Except.ok (a2, b) := by
          simp only [Alloc.Allocate]
          rw [hl]
        have hstep : Alloc.step b (Alloc.AllocOp.allocate k2) = b := by
          simp only [Alloc.step]
          rw [hAlloc]
        rw [hstep]
      | none =>
        have hk2 : k2 ≠ k := by
          intro h
          rw [h] at hl
          rw [hl] at hsome
          exact Bool.noConfusion hsome
        cases hf : (List.range b.pool).find? (fun n => b.leases.all fun l => l.2 ≠ n) with
        | none =>
          have hAlloc : Alloc.Allocate b k2 = Except.error () := by
            simp only [Alloc.Allocate]
            rw [hl, hf]
          have hstep : Alloc.step b (Alloc.AllocOp.allocate k2) = b := by
            simp only [Alloc.step]
            rw [hAlloc]
          rw [hstep]
        | some addr =>
          have hAlloc : Alloc.Allocate b k2
              = Except.ok (addr, { b with leases := (k2, addr) :: b.leases }) := by
            simp only [Alloc.Allocate]
            rw [hl, hf]
          have hstep : Alloc.step b (Alloc.AllocOp.allocate k2)
              = { b with leases := (k2, addr) :: b.leases } := by
            simp only [Alloc.step]
            rw [hAlloc]
          rw [hstep]
          show ((((k2, addr) :: b.leases).find? fun l => l.1 = k).map fun l => l.2)
            = Alloc.lookupKey b k
          rw [List.find?_cons_of_neg _ (by simpa using hk2)]
          rfl

/-- Closed witness for the C7 theorem: after allocating two distinct keys
(which receive addresses 0 and 1), a repeated Allocate of the first key
returns its existing address 0 and leaves the allocator unchanged. -/
theorem allocator_address_uniqueness_wit :
    Alloc.Allocate (Alloc.execOps 4 [Alloc.AllocOp.allocate Examples.k1,
        Alloc.AllocOp.allocate Examples.k2]) Examples.k1
      = Except.ok (0, Alloc.execOps 4 [Alloc.AllocOp.allocate Examples.k1,
          Alloc.AllocOp.allocate Examples.k2]) :=
  (allocator_address_uniqueness 4 [Alloc.AllocOp.allocate Examples.k1,
      Alloc.AllocOp.allocate Examples.k2]).2.1 Examples.k1 0 (by decide)
